import Mathlib

/-!
Verification development for the ChEMBL_DataAcquisition classification core.

The definitions below are a shallow embedding of `src/mylib/transforms.py`
(classes `IUPHARData`, `ClassificationRecord`, `IUPHARClassifier`), of the
target/family CSV loaders in `src/IUPHAR/script/io_utils.py`, and of the final
deduplication stage of `src/library/classification_library.py`
(`main_process` / `get_multyply`).  Pandas data frames are modelled as lists
of row structures whose fields are the columns guaranteed by the loaders
(`load_targets` / `load_families` read every column as a string and replace
missing values by the empty string).  Functions that can raise a Python
exception are modelled with `Except`.
-/

namespace ChemblDA

/-! ## Basic string helpers (models of the Python primitives used) -/

/-- Lower-case a list of characters, modelling Python `str.lower` for the
identifiers appearing in this code base. -/
def toLowerL (l : List Char) : List Char := l.map Char.toLower

/-- Lower-case a string. -/
def toLowerStr (s : String) : String := String.mk (toLowerL s.data)

/-- Does `hay` start with `needle`?  (Model of a prefix test on char lists.) -/
def leadsWith : List Char → List Char → Bool
  | [], _ => true
  | _ :: _, [] => false
  | a :: as, b :: bs => a == b && leadsWith as bs

/-- Does `needle` occur contiguously inside `hay`?  Model of the Python
substring operator `in`. -/
def hasSegment (needle : List Char) : List Char → Bool
  | [] => leadsWith needle []
  | b :: bs => leadsWith needle (b :: bs) || hasSegment needle bs

/-- Case-insensitive substring test on strings. -/
def hasSubCI (hay pat : String) : Bool := hasSegment (toLowerL pat.data) (toLowerL hay.data)

/-- Case-sensitive substring test on strings (Python `pat in hay`). -/
def hasSub (hay pat : String) : Bool := hasSegment pat.data hay.data

/-- Does the string contain the character?  Model of Python `c in s`. -/
def strHasChar (c : Char) (s : String) : Bool := s.data.contains c

/-- Split helper accumulating the current field in reverse. -/
def splitCharAux (c : Char) (acc : List Char) : List Char → List (List Char)
  | [] => [acc.reverse]
  | x :: xs => if x == c then acc.reverse :: splitCharAux c [] xs else splitCharAux c (x :: acc) xs

/-- Model of Python `s.split(sep)` for a one-character separator: always
returns a non-empty list, `"".split(sep) == [""]`. -/
def splitOnC (c : Char) (s : String) : List String :=
  (splitCharAux c [] s.data).map (fun l => String.mk l)

/-- Model of Python `sep.join(parts)`. -/
def joinSep (sep : String) : List String → String
  | [] => ""
  | [x] => x
  | x :: y :: xs => x ++ sep ++ joinSep sep (y :: xs)

/-- Model of Python `s.split(".")[0]`: the characters before the first dot. -/
def firstField (s : String) : String := String.mk (s.data.takeWhile (fun c => !(c == ('.'))))

/-- Keep the first occurrence of every element, preserving order (model of
`pandas.Series.unique` and `dict.fromkeys`). -/
def dedupFirstAux [DecidableEq α] (seen : List α) : List α → List α
  | [] => []
  | x :: xs => if x ∈ seen then dedupFirstAux seen xs else x :: dedupFirstAux (x :: seen) xs

/-- First-seen deduplication. -/
def dedupFirst [DecidableEq α] (l : List α) : List α := dedupFirstAux [] l

/-- Insert into a sorted list with respect to a boolean comparator. -/
def insertLe (le : α → α → Bool) (a : α) : List α → List α
  | [] => [a]
  | b :: bs => if le a b then a :: b :: bs else b :: insertLe le a bs

/-- Insertion sort with a boolean comparator (model of Python `sorted` and of
the ascending key sort performed by `pandas.groupby`). -/
def sortLe (le : α → α → Bool) : List α → List α
  | [] => []
  | x :: xs => insertLe le x (sortLe le xs)

/-- Code-point lexicographic strict order on char lists (Python `str` order). -/
def strLtB : List Char → List Char → Bool
  | [], [] => false
  | [], _ :: _ => true
  | _ :: _, [] => false
  | a :: as, b :: bs => decide (a.toNat < b.toNat) || (a == b && strLtB as bs)

/-- Non-strict code-point order on strings. -/
def strLeB (a b : String) : Bool := strLtB a.data b.data || a == b

/-! ## Model of regular-expression compilation

`IUPHARData.target_id_by_name` calls `pandas.Series.str.contains` with its
default `regex=True`, so the query is compiled by Python `re` before any row
is examined.  We model the one compilation failure mode relevant here: an
unterminated character class (an `[` that is never closed), which is exactly
what `re.error: unterminated character set` reports for a query such as
`alp[ha`.  Queries that contain no regex metacharacters compile and match as
plain case-insensitive substrings; those are the only compiled queries the
theorems below evaluate. -/

/-- State machine over the pattern: `inClass` records whether an open `[` is
pending.  A pattern ending inside a class fails to compile. -/
def bracketsOkAux : Bool → List Char → Bool
  | inClass, [] => !inClass
  | inClass, c :: rest =>
    if inClass then bracketsOkAux (!(c == (']'))) rest
    else bracketsOkAux (c == ('[')) rest

/-- Does the pattern compile under Python `re`?  (Unterminated character
classes are rejected; see the note above.) -/
def reCompileOk (p : String) : Bool := bracketsOkAux false p.data

/-! ## Data model

Row structures mirror the columns guaranteed by `load_targets` and
`load_families` in `src/IUPHAR/script/io_utils.py`: every column is read with
`dtype=str` and `fillna("")`, legacy `HGNC_NAME`/`HGNC_ID` headers are renamed
to `hgnc_name`/`hgnc_id`, and the expected lowercase columns are validated.
The optional `type` column is modelled as a field that is `""` when absent. -/

structure TargetRow where
  target_id : String
  swissprot : String
  hgnc_name : String
  hgnc_id : String
  gene_name : String
  synonyms : String
  family_id : String
  target_name : String
  type : String
deriving DecidableEq

structure FamilyRow where
  family_id : String
  family_name : String
  parent_family_id : String
  target_id : String
  type : String
deriving DecidableEq

/-- Container mirroring the `IUPHARData` dataclass: the loaded target and
family tables. -/
structure IUPHARData where
  target_df : List TargetRow
  family_df : List FamilyRow
deriving DecidableEq

/-- Columns present in the loaded target frame.  `load_targets` renames the
legacy uppercase `HGNC_NAME` / `HGNC_ID` headers to lowercase before
validation, so only the lowercase names exist as columns afterwards. -/
def targetColOfName (c : String) : Option (TargetRow → String) :=
  if c = "target_id" then some (fun r => r.target_id)
  else if c = "swissprot" then some (fun r => r.swissprot)
  else if c = "hgnc_name" then some (fun r => r.hgnc_name)
  else if c = "hgnc_id" then some (fun r => r.hgnc_id)
  else if c = "gene_name" then some (fun r => r.gene_name)
  else if c = "synonyms" then some (fun r => r.synonyms)
  else if c = "family_id" then some (fun r => r.family_id)
  else if c = "target_name" then some (fun r => r.target_name)
  else if c = "type" then some (fun r => r.type)
  else none

/-- Model of `self.target_df[c]`: column access on the loaded frame raises
`KeyError` when the column does not exist. -/
def targetColumn (d : IUPHARData) (c : String) : Except String (List String) :=
  match targetColOfName c with
  | some f => Except.ok (d.target_df.map f)
  | none => Except.error ("KeyError: " ++ c)

/-! ## IUPHARData methods (from `src/mylib/transforms.py`) -/

/-- One row lookup in the family table: `family_df.loc[family_df["family_id"]
== current, "parent_family_id"]`, first hit. -/
def familyParentLookup (d : IUPHARData) (fid : String) : Option String :=
  (d.family_df.find? (fun r => r.family_id == fid)).map (fun r => r.parent_family_id)

/-- Fuel-indexed embedding of the `while` loop in `IUPHARData.family_chain`.
The loop appends the current id, looks up its parent and continues; it exits
only when the current id is empty, has no family record, or has an empty
parent.  The source has no cycle guard, so the loop need not terminate; the
fuel counts loop iterations and exhaustion truncates the chain. -/
def familyChainFuel (d : IUPHARData) : String → Nat → List String
  | _, 0 => []
  | current, fuel + 1 =>
    if current = "" then []
    else
      current ::
        (match familyParentLookup d current with
          | none => []
          | some parent => if parent = "" then [] else familyChainFuel d parent fuel)

/-- Embedding of `IUPHARData._select_target_ids`: project `target_id` over the rows that
satisfy the mask and keep first occurrences (`Series.unique`). -/
def selectTargetIdsP (d : IUPHARData) (p : TargetRow → Bool) : List String :=
  dedupFirst ((d.target_df.filter p).map (fun r => r.target_id))

/-- Mask-based variant used when the mask is computed from a raw column. -/
def selectTargetIdsMask (d : IUPHARData) (mask : List Bool) : List String :=
  dedupFirst (((d.target_df.zip mask).filter (fun pr => pr.2)).map (fun pr => pr.1.target_id))

/-- Python `"|".join(ids) if ids else ""`. -/
def pipeJoin (ids : List String) : String := if ids = [] then "" else joinSep ("|") ids

/-- Embedding of `IUPHARData.target_id_by_uniprot`: first matching id or the empty
string. -/
def targetIdByUniprot (d : IUPHARData) (u : String) : String :=
  (selectTargetIdsP d (fun r => r.swissprot == u)).headD ""

/-- Embedding of `IUPHARData.target_id_by_hgnc_name`: guards the empty query, then reads
column `HGNC_NAME` of the target frame. -/
def targetIdByHgncName (d : IUPHARData) (h : String) : Except String String :=
  if h = "" then Except.ok ""
  else
    match targetColumn d ("HGNC_NAME") with
    | Except.error e => Except.error e
    | Except.ok col => Except.ok (pipeJoin (selectTargetIdsMask d (col.map (fun v => v == h))))

/-- Embedding of `IUPHARData.target_id_by_hgnc_id`: reads column `HGNC_ID` of the target
frame (no empty-query guard in the source). -/
def targetIdByHgncId (d : IUPHARData) (h : String) : Except String String :=
  match targetColumn d ("HGNC_ID") with
  | Except.error e => Except.error e
  | Except.ok col => Except.ok (pipeJoin (selectTargetIdsMask d (col.map (fun v => v == h))))

/-- Embedding of `IUPHARData.target_id_by_gene`: exact match on the `gene_name` column. -/
def targetIdByGene (d : IUPHARData) (g : String) : String :=
  pipeJoin (selectTargetIdsP d (fun r => r.gene_name == g))

/-- Embedding of `IUPHARData.target_id_by_name`: the query is compiled as a regular
expression by `Series.str.contains(..., case=False)` (`regex=True` default)
and then matched case-insensitively against the synonyms column. -/
def targetIdByName (d : IUPHARData) (name : String) : Except String String :=
  if name = "" then Except.ok ""
  else if reCompileOk name then
    Except.ok (pipeJoin (selectTargetIdsP d (fun r => hasSubCI r.synonyms name)))
  else Except.error ("re.error: unterminated character set")

/-- Embedding of `IUPHARData.from_target_record`: first row with the given target id. -/
def fromTargetRecord (d : IUPHARData) (tid : String) : Option TargetRow :=
  d.target_df.find? (fun r => r.target_id == tid)

/-- Embedding of `IUPHARData.from_target_name`. -/
def fromTargetName (d : IUPHARData) (tid : String) : String :=
  match fromTargetRecord d tid with
  | none => ""
  | some r => r.target_name

/-- Embedding of `IUPHARData.from_target_type`. -/
def fromTargetType (d : IUPHARData) (tid : String) : String :=
  match fromTargetRecord d tid with
  | none => ""
  | some r => r.type

/-- Embedding of `IUPHARData.from_target_family_id`. -/
def fromTargetFamilyId (d : IUPHARData) (tid : String) : String :=
  match fromTargetRecord d tid with
  | none => ""
  | some r => r.family_id

/-- Embedding of `IUPHARData.from_family_record`: first row with the given family id. -/
def fromFamilyRecord (d : IUPHARData) (fid : String) : Option FamilyRow :=
  d.family_df.find? (fun r => r.family_id == fid)

/-- Embedding of `IUPHARData.from_family_type`. -/
def fromFamilyType (d : IUPHARData) (fid : String) : String :=
  match fromFamilyRecord d fid with
  | none => ""
  | some r => r.type

/-- Embedding of `IUPHARData.family_id_by_name`: family ids of the targets matched by
name, de-duplicated and sorted ascending (`sorted(set(...))`). -/
def familyIdByName (d : IUPHARData) (name : String) : Except String String :=
  if name = "" then Except.ok ""
  else
    match targetIdByName d name with
    | Except.error e => Except.error e
    | Except.ok tids =>
      let tlist := splitOnC ('|') tids
      let fams := (tlist.filter (fun t => t ≠ "")).map (fun t => fromTargetFamilyId d t)
      let uniq := sortLe strLeB (dedupFirst (fams.filter (fun f => f ≠ "")))
      Except.ok (if uniq = [] then "" else joinSep ("|") uniq)

/-- Embedding of `IUPHARData.all_id`: the target id, then a hash sign, then the
family chain joined by the greater-than sign; the empty string when the target
has no family id. -/
def allId (fuel : Nat) (d : IUPHARData) (tid : String) : String :=
  let famId := fromTargetFamilyId d tid
  if famId = "" then ""
  else tid ++ "#" ++ joinSep (">") (familyChainFuel d famId fuel)

/-- Embedding of `IUPHARData.all_name`: name path over the chain, skipping records without
a name and the bare label `enzyme`. -/
def allName (fuel : Nat) (d : IUPHARData) (tid : String) : String :=
  let famId := fromTargetFamilyId d tid
  if famId = "" then ""
  else
    let chain := (familyChainFuel d famId fuel).filterMap (fun fid =>
      match fromFamilyRecord d fid with
      | none => none
      | some r => if r.family_name ≠ "" && toLowerStr r.family_name ≠ "enzyme" then some r.family_name else none)
    fromTargetName d tid ++ "#" ++ joinSep (">") chain

/-! ## ClassificationRecord and IUPHARClassifier -/

/-- The `ClassificationRecord` dataclass with the defaults installed by
`__post_init__` (`tree = ["0864-1", "0864"]`, `ec = []`). -/
structure ClassificationRecord where
  IUPHAR_target_id : String := "N/A"
  IUPHAR_family_id : String := "N/A"
  IUPHAR_class : String := "Other Protein Target"
  IUPHAR_subclass : String := "Other Protein Target"
  IUPHAR_tree : List String := ["0864-1", "0864"]
  IUPHAR_type : String := "Other Protein Target.Other Protein Target"
  IUPHAR_name : String := "N/A"
  IUPHAR_ecNumber : List String := []
  STATUS : String := "N/A"
deriving DecidableEq

/-- Model of `ClassificationRecord()` with no arguments: the default/unresolved
record. -/
def defaultRecord : ClassificationRecord := {}

/-- Embedding of `IUPHARClassifier._is_valid_parameter` (with Python `None` modelled as
the empty string, which is falsy in the same way). -/
def isValidParameter (p : String) : Bool :=
  p ≠ "" && p ≠ "N/A" && p ≠ "Other Protein Target"

/-- Embedding of `IUPHARClassifier._is_valid_list`. -/
def isValidList (values : List String) : Bool :=
  let lst := values.filter (fun v => v ≠ "" && v ≠ "N/A")
  match lst with
  | [] => false
  | v0 :: _ => !(v0 == "0864-1" && lst.length == 2)

/-- Embedding of `IUPHARClassifier._family_to_type`: family type lookup with `"N/A"`
fall-backs. -/
def familyToType (d : IUPHARData) (fid : String) : String :=
  if isValidParameter fid then
    let t := fromFamilyType d fid
    if t = "" then "N/A" else t
  else "N/A"

/-- Embedding of `IUPHARClassifier._family_to_chain`. -/
def familyToChain (fuel : Nat) (d : IUPHARData) (fid : String) : List String :=
  if isValidParameter fid then familyChainFuel d fid fuel else []

/-- Embedding of `IUPHARClassifier._target_record`. -/
def targetRecord (d : IUPHARData) (tid : String) : Option TargetRow :=
  if isValidParameter tid then fromTargetRecord d tid else none

/-- The `if`/`elif` cascade of `IUPHARClassifier._target_to_type` that
reconciles `type1` (the target's own type) with `type2` (its family's
type). -/
def reconcileType (t1 t2 : String) : String :=
  if isValidParameter t1 && !(isValidParameter t2) then t1
  else if isValidParameter t2 && !(isValidParameter t1) then t2
  else if !(isValidParameter t1 || isValidParameter t2) then
    "Other Protein Target.Other Protein Target"
  else if t1 == t2 then t1
  else if isValidParameter t1 then t1
  else "N/A.N/A"

/-- Embedding of `IUPHARClassifier._target_to_type`: look up the record, reconcile the two
types, and replace an empty result by the default type (`type_val or ...`). -/
def targetToType (d : IUPHARData) (tid : String) : String :=
  match targetRecord d tid with
  | none => "Other Protein Target.Other Protein Target"
  | some r =>
    let t := reconcileType r.type (familyToType d r.family_id)
    if t = "" then "Other Protein Target.Other Protein Target" else t

/-- Embedding of `IUPHARClassifier._name_to_type`: the ordered keyword ladder over the
lower-cased name. -/
def nameToType (name : String) : String :=
  if !(isValidParameter name) then "Other Protein Target.Other Protein Target"
  else
    let n := toLowerStr name
    if hasSub n ("kinase") then "Enzyme.Transferase"
    else if hasSub n ("oxidase") || hasSub n ("reductase") then "Enzyme.Oxidoreductase"
    else if hasSub n ("hydrolase") || hasSub n ("protease") || hasSub n ("phosphatases") then "Enzyme.Hydrolase"
    else if hasSub n ("atpase") then "Transporter.N/A"
    else if hasSub n ("solute carrier") then "Transporter.SLC superfamily of solute carrier"
    else if hasSub n ("transport") then "Transporter.N/A"
    else if hasSub n ("channel") then "Ion channel.N/A"
    else if hasSub n ("hormone") then "Receptor.Nuclear hormone receptor"
    else "Other Protein Target.Other Protein Target"

/-- Embedding of `IUPHARClassifier._CHAIN_MAP`. -/
def CHAIN_MAP : List (String × List String) :=
  [("Enzyme.Oxidoreductase", ["0690-1", "0690"]),
   ("Enzyme.Transferase", ["0690-2", "0690"]),
   ("Enzyme.Multifunctional", ["0690-3", "0690"]),
   ("Enzyme.Hydrolase", ["0690-4", "0690"]),
   ("Enzyme.Isomerase", ["0690-5", "0690"]),
   ("Enzyme.Lyase", ["0690-6", "0690"]),
   ("Enzyme.Ligase", ["0690-6", "0690"]),
   ("Receptor.Catalytic receptor", ["0862", "0688"]),
   ("Receptor.G protein-coupled receptor", ["0694", "0688"]),
   ("Receptor.Nuclear hormone receptor", ["0095", "0688"]),
   ("Transporter.ATP-binding cassette transporter family", ["0136", "0691"]),
   ("Transporter.F-type and V-type ATPase", ["0137", "0691"]),
   ("Transporter.P-type ATPase", ["0138", "0691"]),
   ("Transporter.SLC superfamily of solute carrier", ["0863", "0691"]),
   ("Ion channel.Ligand-gated ion channel", ["0697", "0689"]),
   ("Ion channel.Other ion channel", ["0861", "0689"]),
   ("Ion channel.Voltage-gated ion channel", ["0696", "0689"])]

/-- The fixed EC leading-numeral table of `_ec_number_to_type`. -/
def ecClassTable (code : String) : String :=
  if code = "1" then "Enzyme.Oxidoreductase"
  else if code = "2" then "Enzyme.Transferase"
  else if code = "3" then "Enzyme.Hydrolase"
  else if code = "4" then "Enzyme.Lyase"
  else if code = "5" then "Enzyme.Isomerase"
  else if code = "6" then "Enzyme.Ligase"
  else if code = "7" then "Enzyme.Translocase"
  else ""

/-- The set comprehension of `_ec_number_to_type`: distinct leading fields of
the entries that contain a dot and have a non-empty leading field.  The set
is modelled as a first-seen de-duplicated list; only its cardinality and sole
element (when unique) are consumed. -/
def ecLeadDigits (ecs : List String) : List String :=
  dedupFirst (ecs.filterMap (fun n =>
    if strHasChar ('.') n && firstField n ≠ "" then some (firstField n) else none))

/-- Embedding of `IUPHARClassifier._ec_number_to_type`. -/
def ecNumberToType (ecs : List String) : String :=
  if !(isValidList ecs) then ""
  else
    match ecLeadDigits ecs with
    | [] => ""
    | [c] => ecClassTable c
    | _ => "Enzyme.Multifunctional"

/-- Embedding of `IUPHARClassifier._ec_number_to_chain`. -/
def ecNumberToChain (ecs : List String) : List String :=
  (CHAIN_MAP.lookup (ecNumberToType ecs)).getD (["0864-1", "0864"])

/-- Embedding of `IUPHARClassifier.set_record` (with `status`/`ec_numbers` keyword
arguments modelled as options, `None` being `none`). -/
def setRecord (fuel : Nat) (d : IUPHARData) (itid ifid iname : String)
    (statusArg : Option String) (ecArg : Option (List String)) : ClassificationRecord :=
  let target_id := if isValidParameter itid then itid else "N/A"
  let family_id :=
    if !(isValidParameter ifid) && isValidParameter target_id then
      let f := fromTargetFamilyId d target_id
      if f = "" then "N/A" else f
    else ifid
  let name := if isValidParameter iname then iname else "N/A"
  let numbers : List String :=
    match ecArg with
    | some ns => if ns ≠ [] && isValidList ns then ns else []
    | none => []
  let status :=
    match statusArg with
    | some s => s
    | none =>
      if isValidParameter target_id then "target_id"
      else if isValidParameter family_id then "family_id"
      else if isValidList numbers then "ec_number"
      else "N/A"
  let typeVal :=
    if isValidParameter target_id then targetToType d target_id
    else if isValidParameter family_id then familyToType d family_id
    else "Other Protein Target.Other Protein Target"
  let parts := splitOnC ('.') typeVal
  let clsPart := parts.headD ("Other Protein Target")
  let subPart := (parts.drop 1).headD ("Other Protein Target")
  let tree := if isValidParameter family_id then familyToChain fuel d family_id else ["0864-1", "0864"]
  { IUPHAR_target_id := target_id
    IUPHAR_family_id := if isValidParameter family_id then family_id else "N/A"
    IUPHAR_class := clsPart
    IUPHAR_subclass := subPart
    IUPHAR_tree := tree
    IUPHAR_type := typeVal
    IUPHAR_name := name
    IUPHAR_ecNumber := numbers
    STATUS := status }

/-- Embedding of `IUPHARClassifier.by_target_id` (`optional_name or ""` is passed on; the
`None` default is modelled by `""`). -/
def byTargetId (fuel : Nat) (d : IUPHARData) (tid : String) (optName : String) : ClassificationRecord :=
  if !(isValidParameter tid) || strHasChar ('|') tid then defaultRecord
  else setRecord fuel d tid (fromTargetFamilyId d tid) optName none none

/-- Embedding of `IUPHARClassifier.by_uniprot_id`: resolve the accession through the
catalog, then delegate to `by_target_id`; unmapped accessions yield the
default record. -/
def byUniprotId (fuel : Nat) (d : IUPHARData) (acc : String) : ClassificationRecord :=
  let tid := targetIdByUniprot d acc
  if tid = "" then defaultRecord else byTargetId fuel d tid ""

/-- Embedding of `IUPHARClassifier.by_ec_number`: the raw string is split on pipes only
when it contains a dot or a pipe; otherwise the list is empty and the default
record is returned. -/
def byEcNumber (ec : String) (optName : String) : ClassificationRecord :=
  let numbers := if strHasChar ('.') ec || strHasChar ('|') ec then splitOnC ('|') ec else []
  if !(isValidList numbers) then defaultRecord
  else
    let t0 := ecNumberToType numbers
    let typeVal := if t0 = "" then "Other Protein Target.Other Protein Target" else t0
    let parts := splitOnC ('.') typeVal
    let clsPart := parts.headD ("Other Protein Target")
    let subPart := (parts.drop 1).headD ("Other Protein Target")
    let tree := ecNumberToChain numbers
    let name := if isValidParameter optName then optName else "N/A"
    { IUPHAR_target_id := "N/A"
      IUPHAR_family_id := "N/A"
      IUPHAR_type := typeVal
      IUPHAR_class := clsPart
      IUPHAR_subclass := subPart
      IUPHAR_tree := tree
      IUPHAR_name := name
      IUPHAR_ecNumber := numbers
      STATUS := "ec_number" }

/-- Embedding of `IUPHARClassifier.by_name`.  Note the literal `["864-1", "864"]` written
in the source for the unresolved-family tree, unlike the `["0864-1", "0864"]`
sentinel used everywhere else. -/
def byName (fuel : Nat) (d : IUPHARData) (name : String) : Except String ClassificationRecord :=
  if !(isValidParameter name) then Except.ok defaultRecord
  else
    match targetIdByName d name with
    | Except.error e => Except.error e
    | Except.ok tid =>
      match familyIdByName d name with
      | Except.error e => Except.error e
      | Except.ok fid =>
        let typeVal :=
          if isValidParameter tid then targetToType d tid
          else if isValidParameter fid then familyToType d fid
          else nameToType name
        let tree := if isValidParameter fid then familyToChain fuel d fid else ["864-1", "864"]
        let parts := splitOnC ('.') typeVal
        let clsPart := parts.headD ("Other Protein Target")
        let subPart := (parts.drop 1).headD ("Other Protein Target")
        Except.ok
          { IUPHAR_target_id := if isValidParameter tid then tid else "N/A"
            IUPHAR_family_id := if isValidParameter fid then fid else "N/A"
            IUPHAR_type := typeVal
            IUPHAR_class := clsPart
            IUPHAR_subclass := subPart
            IUPHAR_tree := tree
            IUPHAR_name := name
            IUPHAR_ecNumber := []
            STATUS := "name" }

/-! ## BatchMapper (`IUPHARData.map_uniprot_file`, pure row transformation)

The CSV reading/writing is an external collaborator; the embedded function is
the per-row enrichment the method applies between the two.  An input row
carries the required `uniprot_id` column plus (pass-through) an `ec_number`
column as present in the repository's test fixtures. -/

structure BatchInRow where
  uniprot_id : String
  ec_number : String := ""
deriving DecidableEq

structure BatchOutRow where
  uniprot_id : String
  ec_number : String
  target_id : String
  IUPHAR_family_id : String
  IUPHAR_type : String
  IUPHAR_class : String
  IUPHAR_subclass : String
  IUPHAR_chain : String
  full_id_path : String
  full_name_path : String
deriving DecidableEq

/-- Row transformation of `map_uniprot_file`: resolve `target_id` by
accession; rows with an empty `target_id` receive empty classification
columns (the `_classify` early return), others the `by_target_id` record;
finally the full id/name paths are added. -/
def mapUniprotRows (fuel : Nat) (d : IUPHARData) (rows : List BatchInRow) : List BatchOutRow :=
  rows.map (fun row =>
    let tid := targetIdByUniprot d row.uniprot_id
    let rec0 :=
      if tid = "" then (("", "", "", "", "") : String × String × String × String × String)
      else
        let r := byTargetId fuel d tid ""
        (r.IUPHAR_family_id, r.IUPHAR_type, r.IUPHAR_class, r.IUPHAR_subclass,
          joinSep (">") r.IUPHAR_tree)
    { uniprot_id := row.uniprot_id
      ec_number := row.ec_number
      target_id := tid
      IUPHAR_family_id := rec0.1
      IUPHAR_type := rec0.2.1
      IUPHAR_class := rec0.2.2.1
      IUPHAR_subclass := rec0.2.2.2.1
      IUPHAR_chain := rec0.2.2.2.2
      full_id_path := allId fuel d tid
      full_name_path := allName fuel d tid })

/-! ## Concrete catalogs used by the theorems -/

/-- A family catalog whose single record is its own parent: the smallest
cyclic `parent_family_id` graph. -/
def cycData : IUPHARData :=
  { target_df := []
    family_df := [{ family_id := "F1", family_name := "Family One",
                    parent_family_id := "F1", target_id := "", type := "" }] }

/-- A small loaded catalog: one target `T1` in root family `F1`. -/
def sampleData : IUPHARData :=
  { target_df := [{ target_id := "T1", swissprot := "Q11111", hgnc_name := "G1",
                    hgnc_id := "HGNC:1", gene_name := "G1",
                    synonyms := "alpha receptor|beta site", family_id := "F1",
                    target_name := "Target One", type := "" }]
    family_df := [{ family_id := "F1", family_name := "Family One",
                    parent_family_id := "", target_id := "T1", type := "Enzyme.Lyase" }] }

/-- The empty catalog. -/
def emptyData : IUPHARData := { target_df := [], family_df := [] }

/-! ## DedupPipeline Stage D (`src/library/classification_library.py`)

`main_process` groups the `build_base` output by `["chembl_id", "gene_name",
"Index"]`; groups of size one pass through, the remaining groups
(`get_multyply`) are filtered against the curated whitelist of `Merged` keys,
and the two parts are concatenated (singletons first).  `pandas.groupby`
sorts the group keys ascending and the left merge then emits, per key, the
group's rows in their original order; only these four columns enter the
partition, so a row is modelled by them. -/

structure DRow where
  chembl_id : String
  gene_name : String
  idx : Nat
  merged : String
deriving DecidableEq

/-- The partition key `["chembl_id", "gene_name", "Index"]`. -/
abbrev DKey := String × String × Nat

/-- Key projection. -/
def dkey (r : DRow) : DKey := (r.chembl_id, r.gene_name, r.idx)

/-- Group of a key: the rows carrying that key, in table order. -/
def grp (rows : List DRow) (k : DKey) : List DRow :=
  rows.filter (fun r => decide (dkey r = k))

/-- The curated whitelist of `Merged` composite keys in `get_multyply`. -/
def keepList : List String :=
  ["176838", "3231184", "49639", "5721806", "7381101", "765326", "8401880"]

/-- Whitelist membership of a row. -/
def isKept (r : DRow) : Bool := keepList.contains r.merged

/-- Ascending lexicographic order on the partition key, as produced by
`groupby(group_cols).size()`. -/
def keyLtB (a b : DKey) : Bool :=
  strLtB a.1.data b.1.data ||
    (a.1 == b.1 &&
      (strLtB a.2.1.data b.2.1.data || (a.2.1 == b.2.1 && decide (a.2.2 < b.2.2))))

/-- Non-strict version of `keyLtB`, used as the sort comparator. -/
def keyLeB (a b : DKey) : Bool := !(keyLtB b a)

/-- The distinct group keys in ascending order. -/
def keysOf (rows : List DRow) : List DKey :=
  sortLe keyLeB (dedupFirst (rows.map dkey))

/-- Concatenation-map over a key list (the row block a merge against a sorted
key frame emits). -/
def catMap (f : α → List β) : List α → List β
  | [] => []
  | x :: xs => f x ++ catMap f xs

/-- Stage D of the pipeline as a table-to-table function: singleton groups
pass through (in ascending key order), multi-member groups keep only
whitelisted rows, singletons first (`pd.concat([expanded, get_multyply(...)]`). -/
def stageD (rows : List DRow) : List DRow :=
  let ks := keysOf rows
  catMap (fun k => grp rows k) (ks.filter (fun k => decide ((grp rows k).length = 1)))
    ++ catMap (fun k => (grp rows k).filter isKept)
        (ks.filter (fun k => !decide ((grp rows k).length = 1)))

/-- Concrete table for the Stage D order analysis: one singleton group under
key `("b", "g", 0)` and one duplicated group under the smaller key
`("a", "g", 1)` with exactly one whitelisted member. -/
def c9rows : List DRow :=
  [{ chembl_id := "b", gene_name := "g", idx := 0, merged := "777" },
   { chembl_id := "a", gene_name := "g", idx := 1, merged := "176838" },
   { chembl_id := "a", gene_name := "g", idx := 1, merged := "999" }]

/-! ## Spec-side definitions

These follow the wording of the specification (for refinement claims) rather
than the source, and are compared with the embedded code above. -/

/-- Spec 4.5, quoted branch order: both invalid, exactly one valid, equal and
both valid, both valid but different (prefer `type1`), contradiction guard
`"N/A.N/A"`. -/
def specReconcileType (t1 t2 : String) : String :=
  if !(isValidParameter t1) && !(isValidParameter t2) then
    "Other Protein Target.Other Protein Target"
  else if isValidParameter t1 && !(isValidParameter t2) then t1
  else if isValidParameter t2 && !(isValidParameter t1) then t2
  else if t1 == t2 then t1
  else if isValidParameter t1 then t1
  else "N/A.N/A"

/-- Spec 4.5: an empty resulting string is replaced by the default unresolved
type. -/
def specTypeDefault (t : String) : String :=
  if t = "" then "Other Protein Target.Other Protein Target" else t

/-- Spec 4.3 fixed table: 1 to Oxidoreductase, ..., 7 to Translocase, with the
leading `Enzyme.` part; an unknown numeral maps to the empty string. -/
def specEcClassTable (code : String) : String :=
  if code = "1" then "Enzyme.Oxidoreductase"
  else if code = "2" then "Enzyme.Transferase"
  else if code = "3" then "Enzyme.Hydrolase"
  else if code = "4" then "Enzyme.Lyase"
  else if code = "5" then "Enzyme.Isomerase"
  else if code = "6" then "Enzyme.Ligase"
  else if code = "7" then "Enzyme.Translocase"
  else ""

/-- Spec 4.3 algorithm: extract the leading numeral before the first dot of
each EC number and collect the set of distinct leading numerals; zero
distinct numerals give the empty string, more than one gives
`Enzyme.Multifunctional`, exactly one is mapped through the fixed table. -/
def specEcType (ecs : List String) : String :=
  match dedupFirst (ecs.map firstField) with
  | [] => ""
  | [c] => specEcClassTable c
  | _ => "Enzyme.Multifunctional"

/-! ## Helper lemmas -/

/-- The reconciliation cascade of `_target_to_type` agrees pointwise with the
branch order quoted in the specification. -/
theorem reconcile_eq_spec (t1 t2 : String) : reconcileType t1 t2 = specReconcileType t1 t2 := by
  unfold reconcileType specReconcileType
  cases hv1 : isValidParameter t1 <;> cases hv2 : isValidParameter t2 <;> simp [hv1, hv2]

/-- When every entry has a dot and a non-empty leading field, the guarded
extraction of `_ec_number_to_type` is a plain map of leading fields. -/
theorem filterMap_leads (ecs : List String)
    (h : ∀ e ∈ ecs, strHasChar ('.') e = true ∧ firstField e ≠ "") :
    ecs.filterMap (fun n =>
        if strHasChar ('.') n && firstField n ≠ "" then some (firstField n) else none)
      = ecs.map firstField := by
  induction ecs with
  | nil => rfl
  | cons x xs ih =>
    have hx := h x (List.mem_cons_self x xs)
    have hxs : ∀ e ∈ xs, strHasChar ('.') e = true ∧ firstField e ≠ "" :=
      fun e he => h e (List.mem_cons_of_mem x he)
    have hstep : (if strHasChar ('.') x && firstField x ≠ "" then some (firstField x) else none)
          = some (firstField x) := by
      simp [hx.1, hx.2]
    rw [List.filterMap_cons, hstep]
    exact congrArg (List.cons (firstField x)) (ih hxs)

/-! ### List helper lemmas for the Stage D analysis -/

/-- Membership in the de-duplication accumulator. -/
theorem mem_dedupFirstAux [DecidableEq α] (x : α) :
    ∀ (l seen : List α), x ∈ dedupFirstAux seen l ↔ x ∈ l ∧ x ∉ seen := by
  intro l
  induction l with
  | nil => intro seen; simp [dedupFirstAux]
  | cons y ys ih =>
    intro seen
    by_cases hy : y ∈ seen
    · rw [dedupFirstAux, if_pos hy, ih seen]
      constructor
      · rintro ⟨h1, h2⟩; exact ⟨List.mem_cons_of_mem y h1, h2⟩
      · rintro ⟨h1, h2⟩
        cases List.mem_cons.mp h1 with
        | inl he => exact absurd (he ▸ hy) h2
        | inr hm => exact ⟨hm, h2⟩
    · rw [dedupFirstAux, if_neg hy]
      constructor
      · intro hmem
        cases List.mem_cons.mp hmem with
        | inl he => exact ⟨he ▸ List.mem_cons_self y ys, he ▸ hy⟩
        | inr hm =>
          have := (ih (y :: seen)).mp hm
          exact ⟨List.mem_cons_of_mem y this.1, fun hs => this.2 (List.mem_cons_of_mem y hs)⟩
      · rintro ⟨h1, h2⟩
        cases List.mem_cons.mp h1 with
        | inl he => exact he ▸ List.mem_cons_self y _
        | inr hm =>
          by_cases hxy : x = y
          · exact hxy ▸ List.mem_cons_self y _
          · exact List.mem_cons_of_mem y ((ih (y :: seen)).mpr
              ⟨hm, fun hs => (List.mem_cons.mp hs).elim hxy h2⟩)

/-- Membership in `dedupFirst`. -/
theorem mem_dedupFirst [DecidableEq α] (x : α) (l : List α) :
    x ∈ dedupFirst l ↔ x ∈ l := by
  rw [dedupFirst, mem_dedupFirstAux]; simp

/-- The de-duplication accumulator produces duplicate-free lists. -/
theorem nodup_dedupFirstAux [DecidableEq α] :
    ∀ (l seen : List α), (dedupFirstAux seen l).Nodup := by
  intro l
  induction l with
  | nil => intro seen; simp [dedupFirstAux]
  | cons y ys ih =>
    intro seen
    by_cases hy : y ∈ seen
    · rw [dedupFirstAux, if_pos hy]; exact ih seen
    · rw [dedupFirstAux, if_neg hy]
      refine List.nodup_cons.mpr ⟨?_, ih (y :: seen)⟩
      intro hmem
      exact ((mem_dedupFirstAux y ys (y :: seen)).mp hmem).2 (List.mem_cons_self y seen)

/-- Lemma: `dedupFirst` produces duplicate-free lists. -/
theorem nodup_dedupFirst [DecidableEq α] (l : List α) : (dedupFirst l).Nodup :=
  nodup_dedupFirstAux l []

/-- Sorted insertion permutes the extended list. -/
theorem insertLe_perm (le : α → α → Bool) (a : α) :
    ∀ l : List α, (insertLe le a l).Perm (a :: l) := by
  intro l
  induction l with
  | nil => simp [insertLe]
  | cons b bs ih =>
    by_cases h : le a b = true
    · rw [insertLe, if_pos h]
    · rw [insertLe, if_neg h]
      exact (ih.cons b).trans (List.Perm.swap a b bs)

/-- Insertion sort permutes its input. -/
theorem sortLe_perm (le : α → α → Bool) : ∀ l : List α, (sortLe le l).Perm l := by
  intro l
  induction l with
  | nil => exact List.Perm.refl []
  | cons x xs ih => exact (insertLe_perm le x (sortLe le xs)).trans (ih.cons x)

/-- The group-key list is duplicate-free. -/
theorem keysOf_nodup (rows : List DRow) : (keysOf rows).Nodup :=
  ((sortLe_perm keyLeB (dedupFirst (rows.map dkey))).symm).nodup
    (nodup_dedupFirst (rows.map dkey))

/-- A key is listed iff some row carries it. -/
theorem mem_keysOf (rows : List DRow) (k : DKey) :
    k ∈ keysOf rows ↔ ∃ r ∈ rows, dkey r = k := by
  rw [keysOf, (sortLe_perm keyLeB (dedupFirst (rows.map dkey))).mem_iff,
    mem_dedupFirst, List.mem_map]

/-- Membership in a group. -/
theorem mem_grp {rows : List DRow} {k : DKey} {r : DRow} :
    r ∈ grp rows k ↔ r ∈ rows ∧ dkey r = k := by
  simp [grp, List.mem_filter]

/-- A key is listed iff its group is non-empty. -/
theorem keysOf_spec (rows : List DRow) (k : DKey) :
    k ∈ keysOf rows ↔ grp rows k ≠ [] := by
  rw [mem_keysOf]
  constructor
  · rintro ⟨r, hr, hk⟩ hnil
    have hmem : r ∈ grp rows k := mem_grp.mpr ⟨hr, hk⟩
    rw [hnil] at hmem
    exact absurd hmem (List.not_mem_nil r)
  · intro h
    match hg : grp rows k with
    | [] => exact absurd hg h
    | r :: rest =>
      have hmem : r ∈ grp rows k := by rw [hg]; exact List.mem_cons_self r rest
      exact ⟨r, (mem_grp.mp hmem).1, (mem_grp.mp hmem).2⟩

/-- Filtering a per-key concatenation by one key recovers that key's block. -/
theorem filter_catMap (k : DKey) (g : DKey → List DRow)
    (hg : ∀ k' r, r ∈ g k' → dkey r = k') :
    ∀ ks : List DKey, ks.Nodup →
      (catMap g ks).filter (fun r => decide (dkey r = k))
        = if k ∈ ks then g k else [] := by
  intro ks
  induction ks with
  | nil => intro _; simp [catMap]
  | cons k' ks' ih =>
    intro hnd
    have hk'n := (List.nodup_cons.mp hnd).1
    have hnd' := (List.nodup_cons.mp hnd).2
    rw [catMap, List.filter_append, ih hnd']
    by_cases hkk : k' = k
    · subst hkk
      have h1 : (g k').filter (fun r => decide (dkey r = k')) = g k' :=
        List.filter_eq_self.mpr (fun r hr => by simp [hg k' r hr])
      rw [h1, if_neg hk'n, if_pos (List.mem_cons_self k' ks')]
      exact List.append_nil (g k')
    · have h1 : (g k').filter (fun r => decide (dkey r = k)) = [] :=
        List.filter_eq_nil_iff.mpr (fun r hr => by
          simp only [decide_eq_true_eq, hg k' r hr]
          exact hkk)
      rw [h1, List.nil_append]
      by_cases hk : k ∈ ks'
      · rw [if_pos hk, if_pos (List.mem_cons_of_mem k' hk)]
      · rw [if_neg hk, if_neg (fun hmem => (List.mem_cons.mp hmem).elim (fun h => hkk h.symm) hk)]

/-- The group of a key in the Stage D output: singleton groups are copied,
other groups are reduced to their whitelisted rows. -/
theorem grp_stageD (rows : List DRow) (k : DKey) :
    grp (stageD rows) k
      = if (grp rows k).length = 1 then grp rows k else (grp rows k).filter isKept := by
  have hg1 : ∀ k' r, r ∈ grp rows k' → dkey r = k' := fun k' r hr => (mem_grp.mp hr).2
  have hg2 : ∀ k' r, r ∈ (grp rows k').filter isKept → dkey r = k' :=
    fun k' r hr => (mem_grp.mp (List.mem_of_mem_filter hr)).2
  have hnd1 : ((keysOf rows).filter (fun k => decide ((grp rows k).length = 1))).Nodup :=
    (keysOf_nodup rows).filter _
  have hnd2 : ((keysOf rows).filter (fun k => !decide ((grp rows k).length = 1))).Nodup :=
    (keysOf_nodup rows).filter _
  have hsplit : grp (stageD rows) k
      = ((catMap (fun k => grp rows k)
            ((keysOf rows).filter (fun k => decide ((grp rows k).length = 1)))).filter
              (fun r => decide (dkey r = k)))
        ++ ((catMap (fun k => (grp rows k).filter isKept)
            ((keysOf rows).filter (fun k => !decide ((grp rows k).length = 1)))).filter
              (fun r => decide (dkey r = k))) := by
    rw [stageD]
    exact List.filter_append ..
  rw [hsplit, filter_catMap k _ hg1 _ hnd1, filter_catMap k _ hg2 _ hnd2]
  by_cases hlen : (grp rows k).length = 1
  · have hkmem : k ∈ keysOf rows := by
      rw [keysOf_spec]
      intro hnil
      rw [hnil] at hlen
      exact absurd hlen (by simp)
    have m1 : k ∈ (keysOf rows).filter (fun k => decide ((grp rows k).length = 1)) :=
      List.mem_filter.mpr ⟨hkmem, by simp [hlen]⟩
    have m2 : k ∉ (keysOf rows).filter (fun k => !decide ((grp rows k).length = 1)) := by
      intro hm
      have := (List.mem_filter.mp hm).2
      simp [hlen] at this
    rw [if_pos m1, if_neg m2, if_pos hlen, List.append_nil]
  · by_cases hkmem : k ∈ keysOf rows
    · have m1 : k ∉ (keysOf rows).filter (fun k => decide ((grp rows k).length = 1)) := by
        intro hm
        have := (List.mem_filter.mp hm).2
        simp [hlen] at this
      have m2 : k ∈ (keysOf rows).filter (fun k => !decide ((grp rows k).length = 1)) :=
        List.mem_filter.mpr ⟨hkmem, by simp [hlen]⟩
      rw [if_neg m1, if_pos m2, if_neg hlen, List.nil_append]
    · have hnil : grp rows k = [] := by
        by_contra hne
        exact hkmem ((keysOf_spec rows k).mpr hne)
      have m1 : k ∉ (keysOf rows).filter (fun k => decide ((grp rows k).length = 1)) :=
        fun hm => hkmem (List.mem_of_mem_filter hm)
      have m2 : k ∉ (keysOf rows).filter (fun k => !decide ((grp rows k).length = 1)) :=
        fun hm => hkmem (List.mem_of_mem_filter hm)
      rw [if_neg m1, if_neg m2, if_neg hlen, hnil]
      rfl

/-- Group-level idempotence of Stage D. -/
theorem grp_stageD_idem (rows : List DRow) (k : DKey) :
    grp (stageD (stageD rows)) k = grp (stageD rows) k := by
  rw [grp_stageD (stageD rows) k, grp_stageD rows k]
  by_cases h1 : (grp rows k).length = 1
  · simp [h1]
  · simp only [if_neg h1]
    by_cases h2 : ((grp rows k).filter isKept).length = 1
    · rw [if_pos h2]
    · rw [if_neg h2, List.filter_filter]
      simp

/-- Counting a row in a list equals counting it inside its own key group. -/
theorem count_grp_self (l : List DRow) (r : DRow) :
    (grp l (dkey r)).count r = l.count r := by
  rw [grp]
  exact List.count_filter (by simp)

/-! ## Claim theorems -/

/-- C1: on the one-record catalog whose family is its own parent, the
`family_chain` loop never reaches an exit condition — after any number `n` of
iterations it has appended `n` ids and is still running — and the chain it
accumulates repeats the same family id, so the claimed termination and
no-repeat guarantees fail on cyclic data. -/
theorem c1_family_chain_cycle_diverges :
    (∀ n : Nat, (familyChainFuel cycData ("F1") n).length = n) ∧
      familyChainFuel cycData ("F1") 2 = ["F1", "F1"] := by
  constructor
  · intro n
    induction n with
    | zero => rfl
    | succ m ih =>
      have hstep : familyChainFuel cycData ("F1") (m + 1)
          = "F1" :: familyChainFuel cycData ("F1") m := rfl
      rw [hstep, List.length_cons, ih]
  · rfl

/-- C2: `target_id_by_name` hands the query to `Series.str.contains` with the
default `regex=True`, so the query `alp[ha` is compiled as a regular
expression and raises `re.error` instead of returning the empty string. -/
theorem c2_target_id_by_name_raises_on_bracket :
    targetIdByName sampleData ("alp[ha")
      = Except.error ("re.error: unterminated character set") := by
  rfl

/-- C3: the type reconciliation of `_target_to_type` follows exactly the
branch order stated in the claim (both invalid, exactly one valid, both valid
and equal, both valid and different prefers `type1`, contradiction branch
`N/A.N/A`), and an empty resulting string is replaced by the default
unresolved type. -/
theorem c3_target_to_type_branches :
    (∀ t1 t2 : String, reconcileType t1 t2 = specReconcileType t1 t2) ∧
      (∀ (d : IUPHARData) (tid : String),
        targetToType d tid =
          match targetRecord d tid with
          | none => "Other Protein Target.Other Protein Target"
          | some r => specTypeDefault (specReconcileType r.type (familyToType d r.family_id))) := by
  refine ⟨reconcile_eq_spec, ?_⟩
  intro d tid
  cases h : targetRecord d tid with
  | none => simp [targetToType, h]
  | some r => simp [targetToType, h, reconcile_eq_spec, specTypeDefault]

/-- C4: for a valid list of canonical EC numbers the mapper agrees with the
specified distinct-leading-numeral algorithm and fixed table, and the EC-only
classification of `1.2.3.4` yields type `Enzyme.Oxidoreductase` with chain
`["0690-1", "0690"]`. -/
theorem c4_ec_mapper_matches_spec :
    (∀ ecs : List String, isValidList ecs = true →
        (∀ e ∈ ecs, strHasChar ('.') e = true ∧ firstField e ≠ "") →
        ecNumberToType ecs = specEcType ecs) ∧
      (byEcNumber ("1.2.3.4") "").IUPHAR_type = "Enzyme.Oxidoreductase" ∧
      (byEcNumber ("1.2.3.4") "").IUPHAR_tree = ["0690-1", "0690"] := by
  refine ⟨?_, rfl, rfl⟩
  intro ecs hval hcanon
  rw [ecNumberToType, specEcType, ecLeadDigits, filterMap_leads ecs hcanon, hval]
  simp only [Bool.not_true, Bool.false_eq_true, if_false]
  cases hd : dedupFirst (ecs.map firstField) with
  | nil => rfl
  | cons c rest =>
    cases rest with
    | nil => rfl
    | cons c2 rest2 => rfl

/-- C4 witness: the general branch of the theorem applied to the concrete
valid list `["1.2.3.4"]`. -/
theorem c4_witness :
    isValidList ["1.2.3.4"] = true ∧ ecNumberToType ["1.2.3.4"] = specEcType ["1.2.3.4"] :=
  ⟨by decide, c4_ec_mapper_matches_spec.1 (["1.2.3.4"]) (by decide) (by decide)⟩

/-- C5: `by_uniprot_id` is the composition of the catalog accession lookup
with `by_target_id` — when the accession maps to the target id `X` the record
equals `by_target_id(X)`, and an unmapped accession yields the default
record. -/
theorem c5_by_uniprot_round_trip :
    ∀ (fuel : Nat) (d : IUPHARData) (acc : String),
      (targetIdByUniprot d acc = "" → byUniprotId fuel d acc = defaultRecord) ∧
      (∀ X : String, targetIdByUniprot d acc = X → X ≠ "" →
        byUniprotId fuel d acc = byTargetId fuel d X "") := by
  intro fuel d acc
  constructor
  · intro h
    rw [byUniprotId]
    simp [h]
  · intro X hX hne
    rw [byUniprotId]
    simp [hX, hne]

/-- C5 witness: on the sample catalog, accession `Q11111` maps to `T1` and
resolving through the accession equals resolving `T1` directly. -/
theorem c5_witness :
    byUniprotId 5 sampleData ("Q11111") = byTargetId 5 sampleData ("T1") "" :=
  (c5_by_uniprot_round_trip 5 sampleData ("Q11111")).2 ("T1") (by decide) (by decide)

/-- C6: in the `map_uniprot_file` row transformation, an accession with no
catalog target receives empty classification columns even when the row
carries EC-number data — the method never consults EC data, so the claimed EC
fallback does not happen and `IUPHAR_class`/`IUPHAR_subclass` stay empty. -/
theorem c6_batchmapper_unmapped_row_stays_empty :
    mapUniprotRows 5 sampleData [BatchInRow.mk ("UNKNOWN") ("1.2.3.4")]
      = [BatchOutRow.mk ("UNKNOWN") ("1.2.3.4") ("") ("") ("") ("") ("") ("") ("") ("")] := by
  rfl

/-- C7: on a catalog loaded from a table with the documented lowercase
columns, the HGNC lookups read the non-existent columns `HGNC_NAME` and
`HGNC_ID` and therefore raise `KeyError` for any non-empty unmatched query
instead of returning the empty string. -/
theorem c7_hgnc_lookups_raise_keyerror :
    targetIdByHgncName sampleData ("ABC1") = Except.error ("KeyError: HGNC_NAME") ∧
      targetIdByHgncId sampleData ("HGNC:2") = Except.error ("KeyError: HGNC_ID") := by
  exact ⟨rfl, rfl⟩

/-- C8: a name that resolves only through the name branch gets the literal
tree `["864-1", "864"]` written in `by_name`, which is not the
`["0864-1", "0864"]` sentinel of the default record. -/
theorem c8_by_name_tree_differs_from_sentinel :
    byName 5 emptyData ("Example Kinase")
      = Except.ok (ClassificationRecord.mk ("N/A") ("N/A") ("Enzyme") ("Transferase")
          (["864-1", "864"]) ("Enzyme.Transferase") ("Example Kinase") ([]) ("name"))
      ∧ (["864-1", "864"] : List String) ≠ defaultRecord.IUPHAR_tree := by
  exact ⟨rfl, by decide⟩

/-- C9 counterexample: Stage D applied to its own output differs from that
output as an ordered table — the whitelisted survivor of the duplicated group
migrates into the singleton section, which is sorted ahead of the original
singleton. -/
theorem c9_stage_d_not_order_idempotent :
    stageD (stageD c9rows) ≠ stageD c9rows := by
  decide

/-- C9 (amended): re-running Stage D on its own output yields the same rows —
the output is a permutation of the input table, identical up to row order. -/
theorem c9_stage_d_idempotent_up_to_permutation :
    ∀ rows : List DRow, (stageD (stageD rows)).Perm (stageD rows) := by
  intro rows
  refine List.perm_iff_count.mpr (fun r => ?_)
  rw [← count_grp_self (stageD (stageD rows)) r, ← count_grp_self (stageD rows) r,
    grp_stageD_idem]

/-- C10: `by_ec_number` attempts EC classification only when the raw string
contains a dot or a pipe; any other string yields the default unresolved
record, whose status is `N/A`. -/
theorem c10_by_ec_number_needs_dot_or_pipe :
    ∀ s : String, strHasChar ('.') s = false → strHasChar ('|') s = false →
      byEcNumber s "" = defaultRecord ∧ defaultRecord.STATUS = "N/A" := by
  intro s h1 h2
  refine ⟨?_, rfl⟩
  rw [byEcNumber]
  simp [h1, h2, isValidList]

/-- C10 witness: the bare numeral `1` (no dot, no pipe) resolves to the
default record. -/
theorem c10_witness :
    byEcNumber ("1") "" = defaultRecord ∧ defaultRecord.STATUS = "N/A" :=
  c10_by_ec_number_needs_dot_or_pipe ("1") (by decide) (by decide)

end ChemblDA
